import Mathlib

/-!
Verification of the IDArling server-side storage layer
(`src/idarling/shared/storage.py`).

The SQLite-backed `Storage` class is shallowly embedded: a table is a list
of rows in storage-native (insertion) order, a row is an association list
from column name to an SQL value, and the generic statement builders
`_select` / `_update` / `_insert` are translated directly from the SQL
strings the Python code builds.  The external model layer
(`shared/models.py`, `shared/packets.py`) is not part of the source tree,
so the `Group` / `Project` / `Database` / `Event` objects and the
`Default.attrs` extraction are modelled from the spec, as marked on each
such definition.
-/

namespace IDArling

/-- Scalar values that may appear inside an event's serialized payload
dictionary.  The store treats the payload as uninterpreted data. -/
inductive PVal
  | int (n : Int)
  | str (s : String)
  | null
deriving DecidableEq

/-- An SQL value, as bound by the Python layer: integers, text, NULL.
`jsonText p` stands for the TEXT value `json.dumps(p)` stored in the
`dict` column of the `events` table: `json.dumps` is injective on
dictionaries, so the encoded text is represented by the payload itself
and `json.loads` is the inverse. -/
inductive Value
  | int (n : Int)
  | text (s : String)
  | null
  | jsonText (payload : List (String × PVal))
deriving DecidableEq

/-- Python truthiness of a value, as used by the `if val` / `if limit`
tests in `storage.py` and by the spec's falsy-filter-drop convention:
`0`, `""` and `None` are falsy; a `json.dumps` result is a nonempty
string, hence truthy. -/
def Value.truthy : Value → Bool
  | .int n => n != 0
  | .text s => s != ""
  | .null => false
  | .jsonText _ => true

/-- A database row: an association list from column name to value. -/
abbrev Row := List (String × Value)

/-- A column→value mapping as passed to the statement builders
(a Python `dict`, keys unique and in insertion order). -/
abbrev Fields := List (String × Value)

/-- Value of column `c` in row `r` (the `result[col]` access). -/
def lookupCol (c : String) : Row → Option Value
  | [] => none
  | kv :: r => if kv.1 = c then some kv.2 else lookupCol c r

/-- The effect of `UPDATE ... SET c = v` on one row: the existing entry for
column `c` is overwritten. -/
def setCol (c : String) (v : Value) (r : Row) : Row :=
  r.map (fun kv => if kv.1 = c then (kv.1, v) else kv)

/-- The filter-map cleanup in `_select` / `_update`:
`{key: val for key, val in fields.items() if val}` drops every entry
whose value is falsy. -/
def dropFalsy (fields : Fields) : Fields :=
  fields.filter (fun kv => kv.2.truthy)

/-- The `WHERE col1 = ? and col2 = ? ...` clause built from a (already
falsy-dropped) field mapping: a row matches when every listed column
holds exactly the bound value. -/
def rowMatches (fields : Fields) (r : Row) : Bool :=
  fields.all (fun kv => lookupCol kv.1 r == some kv.2)

/-- Effective row cap of the `limit` argument.  A falsy limit (`None` or
`0`) produces no `LIMIT` clause at all (`" limit {};" if limit else ";"`),
and a negative limit produces a `LIMIT` clause that SQLite treats as
unlimited; a positive limit caps the row count. -/
def limCount : Option Int → Option Nat
  | none => none
  | some n => if n ≤ 0 then none else some n.toNat

/-- Apply an optional row cap to a result set. -/
def capRows (rows : List Row) : Option Nat → List Row
  | none => rows
  | some n => rows.take n

/-- One SQL table: its schema (all columns are declared NOT NULL in
`initialize`), its primary-key columns, and its rows in storage-native
(insertion) order. -/
structure Table where
  columns : List String
  primaryKey : List String
  rows : List Row

/-- Errors surfaced to the Python caller: `KeyError` from `dict.pop`,
`sqlite3.IntegrityError` (constraint violation) and
`sqlite3.OperationalError` (malformed statement, e.g. unknown column). -/
inductive Err
  | keyError
  | constraintViolation
  | operationalError
deriving DecidableEq

/-- Translation of `Storage._select(table, fields, limit)`: drop falsy filter entries,
keep the rows matching every remaining `col = ?` condition, apply the
`LIMIT` clause if a truthy limit was given. -/
def _select (t : Table) (fields : Fields) (limit : Option Int) : List Row :=
  capRows (t.rows.filter (rowMatches (dropFalsy fields))) (limCount limit)

/-- Decrement the remaining row budget of an `UPDATE ... LIMIT`. -/
def decrCount : Option Nat → Option Nat
  | none => none
  | some n => some (n - 1)

/-- The effect of `UPDATE ... SET field = ? [WHERE ...] [LIMIT n]` on a row list:
each matching row, up to the optional cap, gets the column overwritten;
other rows are untouched and order is preserved. -/
def updateRows (q : Row → Bool) (field : String) (nv : Value) :
    List Row → Option Nat → List Row
  | [], _ => []
  | r :: rs, rem =>
    if rem = some 0 then r :: rs
    else if q r then setCol field nv r :: updateRows q field nv rs (decrCount rem)
    else r :: updateRows q field nv rs rem

/-- Translation of `Storage._update(table, field, new_value, search_fields, limit)`:
same falsy-drop convention as `_select`, then set `field` to `new_value`
on the matching rows (capped by a truthy limit).  Only the successful
execution is modelled: no caller of `_update` in the repository can
produce a constraint violation (renames always target a fresh name). -/
def _update (t : Table) (field : String) (new_value : Value)
    (search_fields : Fields) (limit : Option Int) : Table :=
  { t with rows :=
      (updateRows (rowMatches (dropFalsy search_fields)) field new_value
        t.rows (limCount limit)) }

/-- Agreement of two rows on one primary-key column: both hold the same
(non-NULL) value there. -/
def pkColEq (a b : Row) (c : String) : Bool :=
  match lookupCol c a, lookupCol c b with
  | some x, some y => x == y
  | _, _ => false

/-- Two rows collide on a primary key when every key column holds equal
(non-NULL) values in both. -/
def pkConflict (pk : List String) (a b : Row) : Bool :=
  pk.all (pkColEq a b)

/-- Translation of `Storage._insert(table, fields)`: `insert into t (cols) values (?..)`
with all values bound as parameters.  SQLite rejects an unknown column
when preparing the statement, rejects a missing NOT NULL column and a
duplicate primary key with `IntegrityError`, and otherwise appends the
row.  On error the table is unchanged (the caller keeps its prior
state). -/
def _insert (t : Table) (fields : Fields) : Except Err Table :=
  if !(fields.all (fun kv => t.columns.contains kv.1)) then
    .error .operationalError
  else if !(t.columns.all (fun c =>
      match lookupCol c fields with
      | some v => !(v == .null)
      | none => false)) then
    .error .constraintViolation
  else if t.rows.any (fun r => pkConflict t.primaryKey r fields) then
    .error .constraintViolation
  else
    .ok { t with rows := t.rows ++ [fields] }

/-! Schema created by `Storage.initialize` (foreign keys are declarative
only: the code never issues `PRAGMA foreign_keys`, so SQLite does not
enforce them). -/

def groupsColumns : List String := ["name", "date"]

def groupsKey : List String := ["name"]

def projectsColumns : List String :=
  ["group_name", "name", "hash", "file", "type", "date"]

def projectsKey : List String := ["group_name", "name"]

def databasesColumns : List String := ["group_name", "project", "name", "date"]

def databasesKey : List String := ["group_name", "project", "name"]

def eventsColumns : List String :=
  ["group_name", "project", "database", "tick", "dict"]

def eventsKey : List String := ["group_name", "project", "database", "tick"]

/-- The state of the store: the rows of the four tables created by
`initialize`, each in storage-native (insertion) order. -/
structure Storage where
  groups : List Row
  projects : List Row
  databases : List Row
  events : List Row
deriving DecidableEq

/-- A freshly initialized store (empty tables). -/
def Storage.init : Storage := ⟨[], [], [], []⟩

def groupsTable (s : Storage) : Table := ⟨groupsColumns, groupsKey, s.groups⟩

def projectsTable (s : Storage) : Table :=
  ⟨projectsColumns, projectsKey, s.projects⟩

def databasesTable (s : Storage) : Table :=
  ⟨databasesColumns, databasesKey, s.databases⟩

def eventsTable (s : Storage) : Table := ⟨eventsColumns, eventsKey, s.events⟩

/-! The model objects.  `shared/models.py` and `shared/packets.py` are not
under `src/`, so these are modelled from the spec: each entity carries
exactly the attributes of the spec's data-model table, and construction
from a row (`Entity(**result)`) reads the corresponding columns. -/

/-- Modelled from the spec: the `Group` model object (shared/models.py is
not under src/) — identity `name`, attribute `date`. -/
structure Group where
  name : String
  date : String
deriving DecidableEq

/-- The `group.__dict__` mapping of a group object. -/
def Group.dict (g : Group) : Fields :=
  [("name", .text g.name), ("date", .text g.date)]

/-- Rebuild a group from a row's columns (`Group(**result)`). -/
def Group.ofRow (r : Row) : Option Group :=
  match lookupCol "name" r, lookupCol "date" r with
  | some (.text n), some (.text d) => some ⟨n, d⟩
  | _, _ => none

/-- Modelled from the spec: the `Project` model object — identity
`(group_name, name)`, attributes `hash`, `file`, `type`, `date`. -/
structure Project where
  group_name : String
  name : String
  hash : String
  file : String
  type : String
  date : String
deriving DecidableEq

/-- The `project.__dict__` mapping of a project object. -/
def Project.dict (p : Project) : Fields :=
  [("group_name", .text p.group_name), ("name", .text p.name),
   ("hash", .text p.hash), ("file", .text p.file),
   ("type", .text p.type), ("date", .text p.date)]

/-- Rebuild a project from a row's columns (`Project(**result)`). -/
def Project.ofRow (r : Row) : Option Project :=
  match lookupCol "group_name" r, lookupCol "name" r, lookupCol "hash" r,
      lookupCol "file" r, lookupCol "type" r, lookupCol "date" r with
  | some (.text g), some (.text n), some (.text h), some (.text f),
      some (.text t), some (.text d) => some ⟨g, n, h, f, t, d⟩
  | _, _, _, _, _, _ => none

/-- Modelled from the spec: the `Database` model object — identity
`(group_name, project, name)`, attribute `date`, plus a transient `tick`
field that is never persisted in the `databases` table (`insert_database`
pops it); absent/None is modelled as `none`. -/
structure Database where
  group_name : String
  project : String
  name : String
  date : String
  tick : Option Int
deriving DecidableEq

/-- The value held by the database object's `tick` field. -/
def Database.tickValue (d : Database) : Value :=
  match d.tick with
  | none => .null
  | some n => .int n

/-- The `database.__dict__` mapping of a database object. -/
def Database.dict (d : Database) : Fields :=
  [("group_name", .text d.group_name), ("project", .text d.project),
   ("name", .text d.name), ("date", .text d.date),
   ("tick", d.tickValue)]

/-- Rebuild a database from a row's columns (`Database(**result)`); the
`tick` field is not a column, so it takes its default. -/
def Database.ofRow (r : Row) : Option Database :=
  match lookupCol "group_name" r, lookupCol "project" r,
      lookupCol "name" r, lookupCol "date" r with
  | some (.text g), some (.text p), some (.text n), some (.text d) =>
    some ⟨g, p, n, d, none⟩
  | _, _, _, _ => none

/-- Modelled from the spec: the session-layer client context supplying
the `group` / `project` / `database` scoping fields. -/
structure Client where
  group : String
  project : String
  database : String

/-- Modelled from the spec: an event object — a caller-assigned `tick`
plus the remaining fields of `event.__dict__` (the opaque payload). -/
structure Event where
  tick : Int
  payload : List (String × PVal)
deriving DecidableEq

/-- Modelled from the spec: `DefaultEvent.attrs(event.__dict__)`
serializes the event's fields excluding `tick`, which is stored in its
own column (spec 4.5); those fields are exactly `payload`. -/
def DefaultEvent.attrs (e : Event) : List (String × PVal) := e.payload

/-- Modelled from the spec: `DefaultEvent.new(dct)` rebuilds a typed
event from a deserialized payload whose `tick` entry was populated from
the column (`dct["tick"] = result["tick"]`): the tick moves into the
event's tick field and the remaining entries form the payload. -/
def DefaultEvent.new (tick : Int) (dct : List (String × PVal)) : Event :=
  ⟨tick, dct.filter (fun kv => !(kv.1 == "tick"))⟩

/-- Modelled from the spec: `Default.attrs(obj.__dict__)` (the external
model layer's default-attribute extraction, shared/packets.py is not
under src/): maps an object's own fields, minus any fields holding
falsy/default values, to a column-name mapping (spec section 6). -/
def Default.attrs (dict : Fields) : Fields :=
  dict.filter (fun kv => kv.2.truthy)

/-! The entity repositories (`storage.py` methods), translated one-to-one.
Optional Python arguments that callers pass positionally are explicit
`Value` arguments (`Value.null` stands for `None`).  List constructions
`[Entity(**row) for row in results]` are `mapM Entity.ofRow`: `none`
models the constructor raising on an unexpected row shape. -/

def insert_group (s : Storage) (group : Group) : Except Err Storage :=
  (_insert (groupsTable s) (Default.attrs group.dict)).map
    (fun t => { s with groups := t.rows })

def select_groups (s : Storage) (name : Value) (limit : Option Int) :
    Option (List Group) :=
  (_select (groupsTable s) [("name", name)] limit).mapM Group.ofRow

/-- Translation of `select_group(name)`, which is `select_groups(name, 1)`: the name goes to
the `name` parameter and `1` to `limit`; returns `objects[0]` or
`None`. -/
def select_group (s : Storage) (name : String) : Option (Option Group) :=
  (select_groups s (.text name) (some 1)).map (fun objects => objects.head?)

def insert_project (s : Storage) (project : Project) : Except Err Storage :=
  (_insert (projectsTable s) (Default.attrs project.dict)).map
    (fun t => { s with projects := t.rows })

def select_projects (s : Storage) (group name : Value) (limit : Option Int) :
    Option (List Project) :=
  (_select (projectsTable s) [("group_name", group), ("name", name)] limit).mapM
    Project.ofRow

/-- Translation of `select_project(name)`, the positional call `select_projects(name, 1)`:
since `select_projects` has signature `(group=None, name=None, limit=None)`,
the name is bound to `group`, the integer `1` to `name`, and `limit` stays
`None`. -/
def select_project (s : Storage) (name : String) : Option (Option Project) :=
  (select_projects s (.text name) (.int 1) none).map
    (fun objects => objects.head?)

def update_project_name (s : Storage) (group old_name new_name : Value)
    (limit : Option Int) : Storage :=
  { s with projects :=
      (_update (projectsTable s) "name" new_name
        [("group_name", group), ("name", old_name)] limit).rows }

def update_database_project (s : Storage) (group old_name new_name : Value)
    (limit : Option Int) : Storage :=
  { s with databases :=
      (_update (databasesTable s) "project" new_name
        [("group_name", group), ("project", old_name)] limit).rows }

def update_events_project (s : Storage) (group old_name new_name : Value)
    (limit : Option Int) : Storage :=
  { s with events :=
      (_update (eventsTable s) "project" new_name
        [("group_name", group), ("project", old_name)] limit).rows }

/-- The effect of `dict.pop(k)` with no default: the entry is removed, or the call
raises `KeyError` when the key is absent. -/
def popKey (k : String) (fields : Fields) : Option Fields :=
  match lookupCol k fields with
  | some _ => some (fields.filter (fun kv => !(kv.1 == k)))
  | none => none

def insert_database (s : Storage) (database : Database) : Except Err Storage :=
  match popKey "tick" (Default.attrs database.dict) with
  | none => .error .keyError
  | some attrs =>
    (_insert (databasesTable s) attrs).map
      (fun t => { s with databases := t.rows })

def select_databases (s : Storage) (group project name : Value)
    (limit : Option Int) : Option (List Database) :=
  (_select (databasesTable s)
    [("group_name", group), ("project", project), ("name", name)] limit).mapM
    Database.ofRow

def select_database (s : Storage) (group project name : String) :
    Option (Option Database) :=
  (select_databases s (.text group) (.text project) (.text name)
    (some 1)).map (fun objects => objects.head?)

def insert_event (s : Storage) (client : Client) (event : Event) :
    Except Err Storage :=
  (_insert (eventsTable s)
    [("group_name", .text client.group),
     ("project", .text client.project),
     ("database", .text client.database),
     ("tick", .int event.tick),
     ("dict", .jsonText (DefaultEvent.attrs event))]).map
    (fun t => { s with events := t.rows })

/-- The `tick` column of an events row.  Every row reachable through the
API stores an integer there (`insert_event` binds `event.tick`); the
default for other shapes is never exercised. -/
def tickOf (r : Row) : Int :=
  match lookupCol "tick" r with
  | some (.int n) => n
  | _ => 0

/-- The `tick > ?` condition of `select_events` (false on a non-integer
column value, which cannot occur through the API). -/
def tickAbove (k : Int) (r : Row) : Bool :=
  match lookupCol "tick" r with
  | some (.int n) => decide (k < n)
  | _ => false

/-- The `group_name = ? and project = ? and database = ?` condition
shared by `select_events` and `last_tick`. -/
def scopeMatch (group project database : String) (r : Row) : Bool :=
  lookupCol "group_name" r == some (.text group) &&
  lookupCol "project" r == some (.text project) &&
  lookupCol "database" r == some (.text database)

/-- Insert a row into a tick-sorted list (stable insertion). -/
def insertByTick (r : Row) : List Row → List Row
  | [] => [r]
  | x :: xs =>
    if tickOf r ≤ tickOf x then r :: x :: xs else x :: insertByTick r xs

/-- Sorting for `ORDER BY tick ASC` (insertion sort; ties cannot occur within one
scope because tick is part of the primary key). -/
def sortByTick : List Row → List Row
  | [] => []
  | x :: xs => insertByTick x (sortByTick xs)

/-- Rebuild one event from a row: `dct = json.loads(result["dict"])`,
then `dct["tick"] = result["tick"]`, then `DefaultEvent.new(dct)`. -/
def eventOfRow (r : Row) : Event :=
  DefaultEvent.new (tickOf r)
    (match lookupCol "dict" r with
     | some (.jsonText p) => p
     | _ => [])

/-- Translation of `Storage.select_events(group, project, database, tick)`: the rows of
the scope with `tick > ?`, ordered by tick ascending, each deserialized
back into an event. -/
def select_events (s : Storage) (group project database : String)
    (tick : Int) : List Event :=
  (sortByTick (s.events.filter
    (fun r => scopeMatch group project database r && tickAbove tick r))).map
    eventOfRow

/-- Translation of `Storage.last_tick(group, project, database)`:
`select tick ... order by tick desc limit 1`, i.e. the tick of the last
row in ascending order, or `0` when the scope has no events. -/
def last_tick (s : Storage) (group project database : String) : Int :=
  match (sortByTick (s.events.filter (scopeMatch group project database))).getLast? with
  | some r => tickOf r
  | none => 0

/-! Lemmas about the row and table primitives. -/

theorem lookupCol_nil (c : String) : lookupCol c [] = none := rfl

theorem lookupCol_cons (c : String) (kv : String × Value) (r : Row) :
    lookupCol c (kv :: r) = if kv.1 = c then some kv.2 else lookupCol c r := rfl

theorem lookupCol_append_none {c : String} {a : Row} (b : Row)
    (h : lookupCol c a = none) : lookupCol c (a ++ b) = lookupCol c b := by
  induction a with
  | nil => rfl
  | cons kv t ih =>
    rw [lookupCol_cons] at h
    by_cases hk : kv.1 = c
    · simp [hk] at h
    · simpa [lookupCol, hk] using ih (by simpa [hk] using h)

theorem lookupCol_append_some {c : String} {a : Row} {v : Value} (b : Row)
    (h : lookupCol c a = some v) : lookupCol c (a ++ b) = some v := by
  induction a with
  | nil => simp [lookupCol] at h
  | cons kv t ih =>
    rw [lookupCol_cons] at h
    by_cases hk : kv.1 = c
    · simp_all [lookupCol, hk]
    · simpa [lookupCol, hk] using ih (by simpa [hk] using h)

theorem lookupCol_eq_none {c : String} {l : Row}
    (h : ∀ kv ∈ l, kv.1 ≠ c) : lookupCol c l = none := by
  induction l with
  | nil => rfl
  | cons kv t ih =>
    have hk : kv.1 ≠ c := h kv (by simp)
    simpa [lookupCol, hk] using ih (fun kv hm => h kv (by simp [hm]))

theorem lookupCol_setCol_self (c : String) (v : Value) (r : Row) :
    lookupCol c (setCol c v r) = (lookupCol c r).map (fun _ => v) := by
  induction r with
  | nil => rfl
  | cons kv t ih =>
    by_cases hk : kv.1 = c
    · simp [setCol, lookupCol, hk]
    · simpa [setCol, lookupCol, hk] using ih

theorem lookupCol_setCol_ne {c c' : String} (hne : c' ≠ c) (v : Value) (r : Row) :
    lookupCol c' (setCol c v r) = lookupCol c' r := by
  induction r with
  | nil => rfl
  | cons kv t ih =>
    by_cases hk : kv.1 = c
    · have hk1 : ¬ (kv.1 = c') := by rw [hk]; exact fun h => hne h.symm
      have hcc : ¬ (c = c') := fun h => hne h.symm
      simp only [setCol, List.map_cons, hk, if_true, lookupCol_cons, hk1, hcc,
        if_false]
      simpa [setCol] using ih
    · simp only [setCol, List.map_cons, hk, if_false, lookupCol_cons]
      by_cases hk' : kv.1 = c'
      · simp [hk']
      · simp only [hk', if_false]
        simpa [setCol] using ih

theorem dropFalsy_append (a b : Fields) :
    dropFalsy (a ++ b) = dropFalsy a ++ dropFalsy b := by
  simp [dropFalsy, List.filter_append]

theorem dropFalsy_cons_falsy {v : Value} (hv : v.truthy = false)
    (k : String) (l : Fields) : dropFalsy ((k, v) :: l) = dropFalsy l := by
  simp [dropFalsy, hv]

/-! Lemmas about the tick-ordering used by the event log accessor. -/

theorem insertByTick_perm (r : Row) (l : List Row) :
    (insertByTick r l).Perm (r :: l) := by
  induction l with
  | nil => exact List.Perm.refl _
  | cons x xs ih =>
    by_cases h : tickOf r ≤ tickOf x
    · simp [insertByTick, h]
    · simp only [insertByTick, h, if_false]
      exact ((ih.cons x).trans (List.Perm.swap r x xs))

theorem sortByTick_perm (l : List Row) : (sortByTick l).Perm l := by
  induction l with
  | nil => exact List.Perm.refl _
  | cons x xs ih =>
    exact (insertByTick_perm x (sortByTick xs)).trans (ih.cons x)

theorem mem_sortByTick {r : Row} {l : List Row} :
    r ∈ sortByTick l ↔ r ∈ l := (sortByTick_perm l).mem_iff

theorem length_sortByTick (l : List Row) :
    (sortByTick l).length = l.length := (sortByTick_perm l).length_eq

theorem pairwise_insertByTick {l : List Row} (r : Row)
    (h : l.Pairwise (fun a b => tickOf a ≤ tickOf b)) :
    (insertByTick r l).Pairwise (fun a b => tickOf a ≤ tickOf b) := by
  induction l with
  | nil => simp [insertByTick]
  | cons x xs ih =>
    rcases List.pairwise_cons.mp h with ⟨hx, hxs⟩
    by_cases hr : tickOf r ≤ tickOf x
    · simp only [insertByTick, hr, if_true]
      refine List.pairwise_cons.mpr ⟨?_, h⟩
      intro b hb
      rcases List.mem_cons.mp hb with rfl | hb
      · exact hr
      · exact le_trans hr (hx _ hb)
    · simp only [insertByTick, hr, if_false]
      refine List.pairwise_cons.mpr ⟨?_, ih hxs⟩
      intro b hb
      rcases List.mem_cons.mp ((insertByTick_perm r xs).mem_iff.mp hb) with rfl | hb
      · exact le_of_not_le hr
      · exact hx _ hb

theorem sortByTick_pairwise (l : List Row) :
    (sortByTick l).Pairwise (fun a b => tickOf a ≤ tickOf b) := by
  induction l with
  | nil => simp [sortByTick]
  | cons x xs ih => exact pairwise_insertByTick x ih

theorem mem_of_getLast?_eq {l : List Row} {y : Row} (h : l.getLast? = some y) :
    y ∈ l := by
  rcases List.mem_getLast?_eq_getLast (Option.mem_def.mpr h) with ⟨hne, rfl⟩
  exact List.getLast_mem hne

theorem pairwise_le_getLast :
    ∀ (l : List Row), l.Pairwise (fun a b => tickOf a ≤ tickOf b) →
      ∀ x ∈ l, ∃ y, l.getLast? = some y ∧ tickOf x ≤ tickOf y
  | [], _, x, hx => absurd hx (List.not_mem_nil x)
  | [a], _, x, hx => by
    rcases List.mem_cons.mp hx with rfl | hx
    · exact ⟨x, rfl, le_refl _⟩
    · cases hx
  | a :: b :: t, h, x, hx => by
    rcases List.pairwise_cons.mp h with ⟨ha, ht⟩
    rcases List.mem_cons.mp hx with rfl | hx
    · rcases pairwise_le_getLast (b :: t) ht b (by simp) with ⟨y, hy, _⟩
      refine ⟨y, by simpa [List.getLast?_cons_cons] using hy, ?_⟩
      exact ha _ (mem_of_getLast?_eq hy)
    · rcases pairwise_le_getLast (b :: t) ht x hx with ⟨y, hy, hxy⟩
      exact ⟨y, by simpa [List.getLast?_cons_cons] using hy, hxy⟩

theorem updateRows_none (q : Row → Bool) (f : String) (v : Value) (l : List Row) :
    updateRows q f v l none = l.map (fun r => if q r then setCol f v r else r) := by
  induction l with
  | nil => rfl
  | cons r rs ih =>
    by_cases hq : q r <;>
      simp [updateRows, decrCount, hq, ih]

theorem filter_map_of_pointwise (u : Row → Row) (q p : Row → Bool) :
    ∀ l : List Row, (∀ r ∈ l, q (u r) = p r) →
      (l.map u).filter q = (l.filter p).map u
  | [], _ => rfl
  | r :: rs, h => by
    have hr := h r (by simp)
    have ih := filter_map_of_pointwise u q p rs (fun x hx => h x (by simp [hx]))
    by_cases hp : p r
    · simp [List.filter_cons, hp ▸ hr, hp, ih]
    · have : q (u r) = false := by rw [hr]; exact Bool.not_eq_true _ ▸ by simp [hp]
      simp [List.filter_cons, this, hp, ih]

theorem tickAbove_iff {k : Int} {r : Row} :
    tickAbove k r = true ↔
      ∃ n : Int, lookupCol "tick" r = some (.int n) ∧ k < n := by
  unfold tickAbove
  cases hl : lookupCol "tick" r with
  | none => simp
  | some v => cases v <;> simp_all

theorem scopeMatch_iff {g p d : String} {r : Row} :
    scopeMatch g p d r = true ↔
      (lookupCol "group_name" r = some (.text g) ∧
       lookupCol "project" r = some (.text p) ∧
       lookupCol "database" r = some (.text d)) := by
  simp [scopeMatch, and_assoc]

theorem tickOf_eq_of_lookup {r : Row} {n : Int}
    (h : lookupCol "tick" r = some (.int n)) : tickOf r = n := by
  unfold tickOf
  rw [h]

theorem eventOfRow_setCol_project (v : Value) (r : Row) :
    eventOfRow (setCol "project" v r) = eventOfRow r := by
  unfold eventOfRow tickOf
  rw [lookupCol_setCol_ne (by decide) v r, lookupCol_setCol_ne (by decide) v r]

theorem tickOf_setCol_project (v : Value) (r : Row) :
    tickOf (setCol "project" v r) = tickOf r := by
  unfold tickOf
  rw [lookupCol_setCol_ne (by decide) v r]

theorem _insert_ok_rows {t t' : Table} {f : Fields}
    (h : _insert t f = .ok t') : t'.rows = t.rows ++ [f] := by
  unfold _insert at h
  split at h
  · cases h
  · split at h
    · cases h
    · split at h
      · cases h
      · cases h
        rfl

theorem lookupCol_filter_out (k : String) (l : Fields) :
    lookupCol k (l.filter (fun kv => !(kv.1 == k))) = none := by
  apply lookupCol_eq_none
  intro kv hm
  have := (List.mem_filter.mp hm).2
  simpa using this

theorem popKey_dropFalsy_truthy {k : String} {v : Value} {l : Fields}
    (hl : ∀ kv ∈ l, kv.1 ≠ k) (hv : v.truthy = true) :
    popKey k (dropFalsy (l ++ [(k, v)])) = some (dropFalsy l) := by
  have hdf : ∀ kv ∈ dropFalsy l, kv.1 ≠ k :=
    fun kv hm => hl kv (List.mem_of_mem_filter hm)
  have happ : dropFalsy (l ++ [(k, v)]) = dropFalsy l ++ [(k, v)] := by
    rw [dropFalsy_append]
    simp [dropFalsy, hv]
  rw [happ]
  unfold popKey
  have hlk : lookupCol k (dropFalsy l ++ [(k, v)]) = some v := by
    rw [lookupCol_append_none _ (lookupCol_eq_none hdf)]
    simp [lookupCol]
  rw [hlk]
  simp only [List.filter_append]
  have h1 : (dropFalsy l).filter (fun kv => !(kv.1 == k)) = dropFalsy l :=
    List.filter_eq_self.mpr (fun kv hm => by simpa using hdf kv hm)
  have h2 : ([(k, v)] : Fields).filter (fun kv => !(kv.1 == k)) = [] := by
    simp
  rw [h1, h2, List.append_nil]

theorem popKey_dropFalsy_falsy {k : String} {v : Value} {l : Fields}
    (hl : ∀ kv ∈ l, kv.1 ≠ k) (hv : v.truthy = false) :
    popKey k (dropFalsy (l ++ [(k, v)])) = none := by
  have hdf : ∀ kv ∈ dropFalsy l, kv.1 ≠ k :=
    fun kv hm => hl kv (List.mem_of_mem_filter hm)
  have happ : dropFalsy (l ++ [(k, v)]) = dropFalsy l := by
    rw [dropFalsy_append]
    simp [dropFalsy, hv]
  rw [happ]
  unfold popKey
  rw [lookupCol_eq_none hdf]

theorem _insert_ok_of {t : Table} {f : Fields}
    (h1 : f.all (fun kv => t.columns.contains kv.1) = true)
    (h2 : t.columns.all (fun c =>
      match lookupCol c f with
      | some v => !(v == Value.null)
      | none => false) = true)
    (h3 : t.rows.any (fun r => pkConflict t.primaryKey r f) = false) :
    _insert t f = .ok ⟨t.columns, t.primaryKey, t.rows ++ [f]⟩ := by
  unfold _insert
  rw [h1, h2, h3]
  rfl

theorem _insert_error_of_pk {t : Table} {f : Fields}
    (h1 : f.all (fun kv => t.columns.contains kv.1) = true)
    (h2 : t.columns.all (fun c =>
      match lookupCol c f with
      | some v => !(v == Value.null)
      | none => false) = true)
    (h3 : t.rows.any (fun r => pkConflict t.primaryKey r f) = true) :
    _insert t f = .error .constraintViolation := by
  unfold _insert
  rw [h1, h2, h3]
  rfl

theorem pkColEq_iff {a b : Row} {c : String} :
    pkColEq a b c = true ↔
      ∃ v, lookupCol c a = some v ∧ lookupCol c b = some v := by
  unfold pkColEq
  cases ha : lookupCol c a with
  | none => simp
  | some x =>
    cases hb : lookupCol c b with
    | none => simp
    | some y =>
      simp only [beq_iff_eq, Option.some.injEq]
      constructor
      · intro h
        exact ⟨x, rfl, h.symm⟩
      · rintro ⟨v, rfl, hv⟩
        exact hv.symm

theorem rowMatches_iff {f : Fields} {r : Row} :
    rowMatches f r = true ↔ ∀ kv ∈ f, lookupCol kv.1 r = some kv.2 := by
  simp [rowMatches]

theorem rowMatches_eq_false {f : Fields} {r : Row}
    (h : ¬ ∀ kv ∈ f, lookupCol kv.1 r = some kv.2) : rowMatches f r = false :=
  Bool.eq_false_iff.mpr (fun ht => h (rowMatches_iff.mp ht))

theorem filter_rowMatches_append_single {l : List Row} {row : Row}
    {f : Fields} (hold : ∀ r ∈ l, rowMatches f r = false)
    (hrow : rowMatches f row = true) :
    (l ++ [row]).filter (rowMatches f) = [row] := by
  rw [List.filter_append]
  have h1 : l.filter (rowMatches f) = [] :=
    List.filter_eq_nil_iff.mpr (fun r hr => by simp [hold r hr])
  rw [h1]
  simp [hrow]

/-! The claims. -/

/-- C3: for every table, every filter mapping, and every column key whose
value is falsy (empty string, zero, None), the generic `_select` (and
`_update` with its search filters) over that mapping returns (resp.
affects) exactly the same rows as the same call with that key omitted
from the mapping: falsy filter entries never constrain the query. -/
theorem falsy_filter_never_constrains (t : Table) (pre post : Fields)
    (k : String) (v : Value) (limit : Option Int) (col : String) (nv : Value)
    (hv : v.truthy = false) :
    _select t (pre ++ (k, v) :: post) limit = _select t (pre ++ post) limit ∧
    _update t col nv (pre ++ (k, v) :: post) limit =
      _update t col nv (pre ++ post) limit := by
  have hdf : dropFalsy (pre ++ (k, v) :: post) = dropFalsy (pre ++ post) := by
    rw [dropFalsy_append, dropFalsy_cons_falsy hv, ← dropFalsy_append]
  constructor
  · unfold _select
    rw [hdf]
  · unfold _update
    rw [hdf]

/-- Witness for C3 at a concrete table and a falsy (empty-string) filter
value. -/
theorem falsy_filter_never_constrains_witness :
    _select ⟨groupsColumns, groupsKey,
        [[("name", Value.text "a"), ("date", Value.text "x")]]⟩
      ([("date", Value.text "x")] ++ ("name", Value.text "") :: []) none =
    _select ⟨groupsColumns, groupsKey,
        [[("name", Value.text "a"), ("date", Value.text "x")]]⟩
      ([("date", Value.text "x")] ++ []) none ∧
    _update ⟨groupsColumns, groupsKey,
        [[("name", Value.text "a"), ("date", Value.text "x")]]⟩
      "date" (Value.text "y")
      ([("date", Value.text "x")] ++ ("name", Value.text "") :: []) none =
    _update ⟨groupsColumns, groupsKey,
        [[("name", Value.text "a"), ("date", Value.text "x")]]⟩
      "date" (Value.text "y") ([("date", Value.text "x")] ++ []) none :=
  falsy_filter_never_constrains
    ⟨groupsColumns, groupsKey,
      [[("name", Value.text "a"), ("date", Value.text "x")]]⟩
    [("date", Value.text "x")] [] "name" (Value.text "") none
    "date" (Value.text "y") (by decide)

/-- C10: a falsy limit argument (0 or None) to the generic select or
update means no limit, not zero rows: select with limit 0 returns exactly
the same rows as select with no limit, and update with limit 0 affects
all matching rows; only a truthy (positive) limit caps the row count. -/
theorem falsy_limit_means_no_limit (t : Table) (fields : Fields)
    (col : String) (nv : Value) :
    _select t fields (some 0) = _select t fields none ∧
    _update t col nv fields (some 0) = _update t col nv fields none ∧
    (∀ n : Int, 0 < n → (_select t fields (some n)).length ≤ n.toNat) := by
  refine ⟨rfl, rfl, ?_⟩
  intro n hn
  unfold _select
  have hl : limCount (some n) = some n.toNat := by
    show (if n ≤ 0 then none else some n.toNat) = some n.toNat
    rw [if_neg (by omega)]
  rw [hl]
  exact List.length_take_le _ _

/-- Witness for C10 at a concrete table and limit. -/
theorem falsy_limit_means_no_limit_witness :
    (_select ⟨groupsColumns, groupsKey,
        [[("name", Value.text "a"), ("date", Value.text "x")]]⟩
      [] (some 2)).length ≤ (2 : Int).toNat :=
  (falsy_limit_means_no_limit
    ⟨groupsColumns, groupsKey,
      [[("name", Value.text "a"), ("date", Value.text "x")]]⟩
    [] "date" Value.null).2.2 2 (by decide)

/-- C6: for every state of the store and every well-formed row whose
primary key already exists in its table — in particular an event whose
(group, project, database, tick) is already present in that scope —
insert raises a duplicate-key constraint violation that propagates
unchanged to the caller.  The error result carries no new state, so the
table's prior contents, including the previously stored row for that
key, are unchanged by the failed insert. -/
theorem duplicate_insert_rejected :
    (∀ (t : Table) (f : Fields),
      (∀ kv ∈ f, kv.1 ∈ t.columns) →
      (∀ c ∈ t.columns, ∃ v, lookupCol c f = some v ∧ v ≠ Value.null) →
      (∃ r ∈ t.rows, pkConflict t.primaryKey r f = true) →
      _insert t f = .error .constraintViolation) ∧
    (∀ (s : Storage) (c : Client) (e : Event) (r : Row), r ∈ s.events →
      lookupCol "group_name" r = some (.text c.group) →
      lookupCol "project" r = some (.text c.project) →
      lookupCol "database" r = some (.text c.database) →
      lookupCol "tick" r = some (.int e.tick) →
      insert_event s c e = .error .constraintViolation) := by
  constructor
  · intro t f hcols hnn hpk
    apply _insert_error_of_pk
    · exact List.all_eq_true.mpr
        (fun kv hm => List.elem_eq_true_of_mem (hcols kv hm))
    · refine List.all_eq_true.mpr (fun c hc => ?_)
      rcases hnn c hc with ⟨v, hv, hvn⟩
      rw [hv]
      simpa using hvn
    · rcases hpk with ⟨r, hr, hc⟩
      exact List.any_eq_true.mpr ⟨r, hr, hc⟩
  · intro s c e r hr hg hp hd ht
    have herr : _insert (eventsTable s)
        [("group_name", .text c.group), ("project", .text c.project),
         ("database", .text c.database), ("tick", .int e.tick),
         ("dict", .jsonText (DefaultEvent.attrs e))] =
        .error .constraintViolation := by
      apply _insert_error_of_pk
      · simp [eventsTable, eventsColumns]
      · simp [eventsTable, eventsColumns, lookupCol]
      · refine List.any_eq_true.mpr ⟨r, hr, ?_⟩
        simp only [pkConflict, eventsTable, eventsKey, List.all_cons,
          List.all_nil, Bool.and_true, Bool.and_eq_true]
        exact ⟨pkColEq_iff.mpr ⟨_, hg, rfl⟩, pkColEq_iff.mpr ⟨_, hp, rfl⟩,
          pkColEq_iff.mpr ⟨_, hd, rfl⟩, pkColEq_iff.mpr ⟨_, ht, rfl⟩⟩
    unfold insert_event
    rw [herr]
    rfl

/-- Witness for C6: a duplicate tick in one scope is rejected, both via
the generic insert and via the event repository. -/
theorem duplicate_insert_rejected_witness :
    _insert ⟨eventsColumns, eventsKey,
        [[("group_name", Value.text "g"), ("project", Value.text "p"),
          ("database", Value.text "d"), ("tick", Value.int 7),
          ("dict", Value.jsonText [])]]⟩
      [("group_name", Value.text "g"), ("project", Value.text "p"),
       ("database", Value.text "d"), ("tick", Value.int 7),
       ("dict", Value.jsonText [("x", PVal.int 1)])] =
      .error .constraintViolation ∧
    insert_event
      ⟨[], [], [],
        [[("group_name", Value.text "g"), ("project", Value.text "p"),
          ("database", Value.text "d"), ("tick", Value.int 7),
          ("dict", Value.jsonText [])]]⟩
      ⟨"g", "p", "d"⟩ ⟨7, [("x", PVal.int 1)]⟩ =
      .error .constraintViolation := by
  constructor
  · exact duplicate_insert_rejected.1
      ⟨eventsColumns, eventsKey,
        [[("group_name", Value.text "g"), ("project", Value.text "p"),
          ("database", Value.text "d"), ("tick", Value.int 7),
          ("dict", Value.jsonText [])]]⟩
      [("group_name", Value.text "g"), ("project", Value.text "p"),
       ("database", Value.text "d"), ("tick", Value.int 7),
       ("dict", Value.jsonText [("x", PVal.int 1)])]
      (by decide) (by decide) (by decide)
  · exact duplicate_insert_rejected.2
      ⟨[], [], [],
        [[("group_name", Value.text "g"), ("project", Value.text "p"),
          ("database", Value.text "d"), ("tick", Value.int 7),
          ("dict", Value.jsonText [])]]⟩
      ⟨"g", "p", "d"⟩ ⟨7, [("x", PVal.int 1)]⟩
      [("group_name", Value.text "g"), ("project", Value.text "p"),
       ("database", Value.text "d"), ("tick", Value.int 7),
       ("dict", Value.jsonText [])]
      (by decide) (by decide) (by decide) (by decide) (by decide)

theorem insert_database_base_keys (d : Database) :
    ∀ kv ∈ ([("group_name", Value.text d.group_name),
        ("project", Value.text d.project), ("name", Value.text d.name),
        ("date", Value.text d.date)] : Fields), kv.1 ≠ "tick" := by
  intro kv hm
  simp only [List.mem_cons, List.not_mem_nil, or_false] at hm
  rcases hm with rfl | rfl | rfl | rfl <;> simp

theorem insert_database_of_falsy {s : Storage} {d : Database}
    (h : Value.truthy d.tickValue = false) :
    insert_database s d = .error .keyError := by
  unfold insert_database
  have hsplit : Default.attrs d.dict =
      dropFalsy ([("group_name", Value.text d.group_name),
        ("project", Value.text d.project), ("name", Value.text d.name),
        ("date", Value.text d.date)] ++ [("tick", d.tickValue)]) := rfl
  rw [hsplit, popKey_dropFalsy_falsy (insert_database_base_keys d) h]

theorem insert_database_of_truthy {s : Storage} {d : Database}
    (h : Value.truthy d.tickValue = true) :
    insert_database s d =
      (_insert (databasesTable s)
        (dropFalsy [("group_name", Value.text d.group_name),
          ("project", Value.text d.project), ("name", Value.text d.name),
          ("date", Value.text d.date)])).map
        (fun t => { s with databases := t.rows }) := by
  unfold insert_database
  have hsplit : Default.attrs d.dict =
      dropFalsy ([("group_name", Value.text d.group_name),
        ("project", Value.text d.project), ("name", Value.text d.name),
        ("date", Value.text d.date)] ++ [("tick", d.tickValue)]) := rfl
  rw [hsplit, popKey_dropFalsy_truthy (insert_database_base_keys d) h]

/-- C9: insert_database raises an unhandled KeyError whenever the
database object's tick is absent or falsy (None or 0), because the
attribute extraction drops falsy-valued fields and the subsequent
`pop("tick")` has no default; insert_database can only succeed for
objects carrying a truthy tick. -/
theorem insert_database_keyerror_on_falsy_tick :
    ∀ (s : Storage) (d : Database),
      (Value.truthy d.tickValue = false →
        insert_database s d = .error .keyError) ∧
      (∀ s', insert_database s d = .ok s' →
        Value.truthy d.tickValue = true) := by
  intro s d
  refine ⟨fun h => insert_database_of_falsy h, fun s' hok => ?_⟩
  by_cases h : Value.truthy d.tickValue = true
  · exact h
  · rw [Bool.not_eq_true] at h
    rw [insert_database_of_falsy h] at hok
    cases hok

/-- Witness for C9: a tick of 0 (falsy) and a tick of None both raise
KeyError; a truthy tick is required for the successful insert. -/
theorem insert_database_keyerror_on_falsy_tick_witness :
    insert_database Storage.init ⟨"g", "p", "d1", "x", some 0⟩ =
      .error .keyError ∧
    insert_database Storage.init ⟨"g", "p", "d1", "x", none⟩ =
      .error .keyError ∧
    Value.truthy (Database.tickValue ⟨"g", "p", "d1", "x", some 4⟩) = true := by
  refine ⟨?_, ?_, ?_⟩
  · exact (insert_database_keyerror_on_falsy_tick Storage.init
      ⟨"g", "p", "d1", "x", some 0⟩).1 (by decide)
  · exact (insert_database_keyerror_on_falsy_tick Storage.init
      ⟨"g", "p", "d1", "x", none⟩).1 (by decide)
  · exact (insert_database_keyerror_on_falsy_tick Storage.init
      ⟨"g", "p", "d1", "x", some 4⟩).2
      ⟨[], [], [[("group_name", Value.text "g"), ("project", Value.text "p"),
        ("name", Value.text "d1"), ("date", Value.text "x")]], []⟩
      (by rfl)

/-- C8: whenever insert_database stores a row, that row carries no tick
column, and the stored row is independent of the object's tick value:
any other truthy tick on the same object produces the identical store
state. -/
theorem insert_database_omits_tick :
    ∀ (s : Storage) (d : Database) (s' : Storage),
      insert_database s d = .ok s' →
      (∃ row, s'.databases = s.databases ++ [row] ∧
        lookupCol "tick" row = none) ∧
      (∀ t : Option Int,
        Value.truthy (Database.tickValue
          ⟨d.group_name, d.project, d.name, d.date, t⟩) = true →
        insert_database s { d with tick := t } = .ok s') := by
  intro s d s' hok
  have htr : Value.truthy d.tickValue = true := by
    by_cases h : Value.truthy d.tickValue = true
    · exact h
    · rw [Bool.not_eq_true] at h
      rw [insert_database_of_falsy h] at hok
      cases hok
  rw [insert_database_of_truthy htr] at hok
  constructor
  · cases hins : _insert (databasesTable s)
        (dropFalsy [("group_name", Value.text d.group_name),
          ("project", Value.text d.project), ("name", Value.text d.name),
          ("date", Value.text d.date)]) with
    | error e => rw [hins] at hok; cases hok
    | ok t =>
      rw [hins] at hok
      cases hok
      refine ⟨_, by simpa [databasesTable] using _insert_ok_rows hins, ?_⟩
      apply lookupCol_eq_none
      intro kv hm
      exact insert_database_base_keys d kv (List.mem_of_mem_filter hm)
  · intro t htt
    rw [insert_database_of_truthy htt]
    exact hok

/-- Witness for C8 at a concrete database object with tick 4, replayed
with tick 9. -/
theorem insert_database_omits_tick_witness :
    (∃ row,
      (⟨[], [], [[("group_name", Value.text "g"), ("project", Value.text "p"),
        ("name", Value.text "d1"), ("date", Value.text "x")]], []⟩ :
          Storage).databases = (Storage.init).databases ++ [row] ∧
      lookupCol "tick" row = none) ∧
    insert_database Storage.init ⟨"g", "p", "d1", "x", some 9⟩ =
      .ok ⟨[], [], [[("group_name", Value.text "g"),
        ("project", Value.text "p"), ("name", Value.text "d1"),
        ("date", Value.text "x")]], []⟩ := by
  have h := insert_database_omits_tick Storage.init ⟨"g", "p", "d1", "x", some 4⟩
    ⟨[], [], [[("group_name", Value.text "g"), ("project", Value.text "p"),
      ("name", Value.text "d1"), ("date", Value.text "x")]], []⟩
    (by rfl)
  exact ⟨h.1, h.2 (some 9) (by decide)⟩

/-- The store used to exhibit the select_project misbinding: a group "g"
holding one project ("g", "p"). -/
def c4storage : Storage :=
  ((insert_group Storage.init ⟨"g", "2020-01-01"⟩).bind (fun s =>
    insert_project s ⟨"g", "p", "h", "f", "t", "2020-01-01"⟩)).toOption.getD
    Storage.init

/-- C4 (failing half): `select_project("p")` does not behave as
`select_projects` with the identity criteria and limit 1 — the positional
call `select_projects(name, 1)` binds the name to the `group` parameter
and the integer 1 to the `name` filter, so the lookup returns the
not-found sentinel even though project ("g", "p") exists and is returned
by the criteria-correct call; `select_group` and `select_database`, by
contrast, behave as specified (single match or sentinel, never an
error). -/
theorem select_project_misbinds_name :
    select_project c4storage "p" = some none ∧
    select_project c4storage "g" = some none ∧
    select_projects c4storage (Value.text "g") (Value.text "p") (some 1) =
      some [⟨"g", "p", "h", "f", "t", "2020-01-01"⟩] ∧
    select_group c4storage "g" = some (some ⟨"g", "2020-01-01"⟩) ∧
    select_group c4storage "zzz" = some none ∧
    select_database c4storage "g" "p" "d" = some none := by
  refine ⟨?_, ?_, ?_, ?_, ?_, ?_⟩ <;> rfl

theorem tick_eventOfRow (r : Row) : (eventOfRow r).tick = tickOf r := rfl

/-- The store obtained by inserting events with ticks 3, 1, 5 (in that
insertion order) into the scope ("g", "p", "d") of a fresh store. -/
def store315 : Except Err Storage :=
  (insert_event Storage.init ⟨"g", "p", "d"⟩ ⟨3, []⟩).bind (fun s =>
    (insert_event s ⟨"g", "p", "d"⟩ ⟨1, []⟩).bind (fun s =>
      insert_event s ⟨"g", "p", "d"⟩ ⟨5, []⟩))

/-- C2: for every scope, last_tick returns the maximum tick among that
scope's stored events (it bounds every stored tick and is attained by
one of them), and returns 0 when the scope has no events; in particular,
after inserting events with ticks 3, 1, 5 (in that insertion order) into
one scope, last_tick returns 5. -/
theorem last_tick_is_max :
    (∀ (s : Storage) (group project database : String),
      (s.events.filter (scopeMatch group project database) = [] →
        last_tick s group project database = 0) ∧
      (∀ r ∈ s.events.filter (scopeMatch group project database),
        tickOf r ≤ last_tick s group project database) ∧
      (s.events.filter (scopeMatch group project database) ≠ [] →
        ∃ r ∈ s.events.filter (scopeMatch group project database),
          tickOf r = last_tick s group project database)) ∧
    store315.map (fun s => last_tick s "g" "p" "d") = .ok 5 := by
  refine ⟨?_, by rfl⟩
  intro s group project database
  refine ⟨?_, ?_, ?_⟩
  · intro hL
    unfold last_tick
    rw [hL]
    rfl
  · intro r hr
    rcases pairwise_le_getLast _
        (sortByTick_pairwise (s.events.filter (scopeMatch group project database)))
        r (mem_sortByTick.mpr hr) with ⟨y, hy, hle⟩
    have : last_tick s group project database = tickOf y := by
      unfold last_tick
      rw [hy]
    rw [this]
    exact hle
  · intro hL
    cases hgl : (sortByTick
        (s.events.filter (scopeMatch group project database))).getLast? with
    | none =>
      have := List.getLast?_eq_none_iff.mp hgl
      have hlen := length_sortByTick
        (s.events.filter (scopeMatch group project database))
      rw [this] at hlen
      exact absurd (List.eq_nil_of_length_eq_zero hlen.symm) hL
    | some y =>
      refine ⟨y, mem_sortByTick.mp (mem_of_getLast?_eq hgl), ?_⟩
      unfold last_tick
      rw [hgl]

/-- Witness for C2: a store whose scope ("g", "p", "d") holds ticks
{3, 1, 5} has 5 as an attained upper bound, and an untouched scope
reports 0. -/
theorem last_tick_is_max_witness :
    ((⟨[], [], [],
      [[("group_name", Value.text "g"), ("project", Value.text "p"),
        ("database", Value.text "d"), ("tick", Value.int 3),
        ("dict", Value.jsonText [])]]⟩ :
        Storage).events.filter (scopeMatch "g" "p" "zzz") = [] →
      last_tick ⟨[], [], [],
        [[("group_name", Value.text "g"), ("project", Value.text "p"),
          ("database", Value.text "d"), ("tick", Value.int 3),
          ("dict", Value.jsonText [])]]⟩ "g" "p" "zzz" = 0) ∧
    (∀ r ∈ (⟨[], [], [],
      [[("group_name", Value.text "g"), ("project", Value.text "p"),
        ("database", Value.text "d"), ("tick", Value.int 3),
        ("dict", Value.jsonText [])]]⟩ :
        Storage).events.filter (scopeMatch "g" "p" "d"),
      tickOf r ≤ last_tick ⟨[], [], [],
        [[("group_name", Value.text "g"), ("project", Value.text "p"),
          ("database", Value.text "d"), ("tick", Value.int 3),
          ("dict", Value.jsonText [])]]⟩ "g" "p" "d") :=
  ⟨(last_tick_is_max.1 ⟨[], [], [],
      [[("group_name", Value.text "g"), ("project", Value.text "p"),
        ("database", Value.text "d"), ("tick", Value.int 3),
        ("dict", Value.jsonText [])]]⟩ "g" "p" "zzz").1,
   (last_tick_is_max.1 ⟨[], [], [],
      [[("group_name", Value.text "g"), ("project", Value.text "p"),
        ("database", Value.text "d"), ("tick", Value.int 3),
        ("dict", Value.jsonText [])]]⟩ "g" "p" "d").2.1⟩

/-- C1: for every scope and every tick value k (including 0),
select_events returns exactly the stored events of that scope whose tick
is strictly greater than k — none with tick ≤ k, every matching stored
row contributes its event, every returned event comes from a matching
stored row — in strictly ascending tick order.  The hypothesis is the
primary-key invariant of the events table: ticks are unique within one
scope. -/
theorem select_events_exact (s : Storage) (group project database : String)
    (k : Int)
    (hnd : ((s.events.filter
      (scopeMatch group project database)).map tickOf).Nodup) :
    (∀ e ∈ select_events s group project database k, k < e.tick) ∧
    (select_events s group project database k).Pairwise
      (fun a b => a.tick < b.tick) ∧
    (∀ r ∈ s.events,
      lookupCol "group_name" r = some (.text group) →
      lookupCol "project" r = some (.text project) →
      lookupCol "database" r = some (.text database) →
      ∀ n : Int, lookupCol "tick" r = some (.int n) → k < n →
      eventOfRow r ∈ select_events s group project database k) ∧
    (∀ e ∈ select_events s group project database k, ∃ r ∈ s.events,
      (lookupCol "group_name" r = some (.text group) ∧
       lookupCol "project" r = some (.text project) ∧
       lookupCol "database" r = some (.text database)) ∧
      (∃ n : Int, lookupCol "tick" r = some (.int n) ∧ k < n) ∧
      e = eventOfRow r) := by
  have hse : select_events s group project database k =
      (sortByTick (s.events.filter
        (fun r => scopeMatch group project database r && tickAbove k r))).map
        eventOfRow := rfl
  have hLf : (s.events.filter (scopeMatch group project database)).filter
      (tickAbove k) =
      s.events.filter
        (fun r => scopeMatch group project database r && tickAbove k r) := by
    rw [List.filter_filter]
    exact List.filter_congr (fun a _ => Bool.and_comm _ _)
  have hsub : List.Sublist
      ((s.events.filter
        (fun r => scopeMatch group project database r && tickAbove k r)).map
        tickOf)
      ((s.events.filter (scopeMatch group project database)).map tickOf) := by
    rw [← hLf]
    exact (List.filter_sublist _).map tickOf
  have hndL : ((s.events.filter
      (fun r => scopeMatch group project database r && tickAbove k r)).map
      tickOf).Nodup := hnd.sublist hsub
  have hperm := sortByTick_perm (s.events.filter
    (fun r => scopeMatch group project database r && tickAbove k r))
  have hndS : ((sortByTick (s.events.filter
      (fun r => scopeMatch group project database r && tickAbove k r))).map
      tickOf).Nodup := ((hperm.map tickOf).nodup_iff).mpr hndL
  have hpne := List.pairwise_map.mp hndS
  have hple := sortByTick_pairwise (s.events.filter
    (fun r => scopeMatch group project database r && tickAbove k r))
  have hplt : (sortByTick (s.events.filter
      (fun r => scopeMatch group project database r && tickAbove k r))).Pairwise
      (fun a b => tickOf a < tickOf b) :=
    (hple.and hpne).imp (fun h => lt_of_le_of_ne h.1 h.2)
  refine ⟨?_, ?_, ?_, ?_⟩
  · intro e he
    rw [hse] at he
    rcases List.mem_map.mp he with ⟨r, hrS, rfl⟩
    have hrL := mem_sortByTick.mp hrS
    have hq := (List.mem_filter.mp hrL).2
    rcases tickAbove_iff.mp (Bool.and_elim_right hq) with ⟨n, hn, hkn⟩
    rw [tick_eventOfRow, tickOf_eq_of_lookup hn]
    exact hkn
  · rw [hse]
    exact List.pairwise_map.mpr hplt
  · intro r hr hg hp hd n hn hkn
    rw [hse]
    refine List.mem_map.mpr ⟨r, mem_sortByTick.mpr (List.mem_filter.mpr
      ⟨hr, ?_⟩), rfl⟩
    simp only [Bool.and_eq_true]
    exact ⟨scopeMatch_iff.mpr ⟨hg, hp, hd⟩, tickAbove_iff.mpr ⟨n, hn, hkn⟩⟩
  · intro e he
    rw [hse] at he
    rcases List.mem_map.mp he with ⟨r, hrS, rfl⟩
    have hrL := mem_sortByTick.mp hrS
    rcases List.mem_filter.mp hrL with ⟨hr, hq⟩
    exact ⟨r, hr, scopeMatch_iff.mp (Bool.and_elim_left hq),
      tickAbove_iff.mp (Bool.and_elim_right hq), rfl⟩

/-- The store used to instantiate C1: scope ("g", "p", "d") holds ticks
3, 1, 5 and an unrelated scope holds tick 4. -/
def c1storage : Storage :=
  ⟨[], [], [],
   [[("group_name", Value.text "g"), ("project", Value.text "p"),
     ("database", Value.text "d"), ("tick", Value.int 3),
     ("dict", Value.jsonText [])],
    [("group_name", Value.text "g"), ("project", Value.text "p"),
     ("database", Value.text "d"), ("tick", Value.int 1),
     ("dict", Value.jsonText [])],
    [("group_name", Value.text "g"), ("project", Value.text "p"),
     ("database", Value.text "d"), ("tick", Value.int 5),
     ("dict", Value.jsonText [])],
    [("group_name", Value.text "g2"), ("project", Value.text "p"),
     ("database", Value.text "d"), ("tick", Value.int 4),
     ("dict", Value.jsonText [])]]⟩

/-- Witness for C1 at a concrete store and sinceTick 1: every returned
event has tick above 1 and the result is strictly ascending. -/
theorem select_events_exact_witness :
    (∀ e ∈ select_events c1storage "g" "p" "d" 1, 1 < e.tick) ∧
    (select_events c1storage "g" "p" "d" 1).Pairwise
      (fun a b => a.tick < b.tick) :=
  ⟨(select_events_exact c1storage "g" "p" "d" 1 (by decide)).1,
   (select_events_exact c1storage "g" "p" "d" 1 (by decide)).2.1⟩

/-- C5: for every valid Group/Project/Database/Event object — fields
non-falsy (they would otherwise be dropped by the attribute extraction
and rejected by NOT NULL), identity not already present — inserting it
and then selecting with the object's identity key returns an object
equivalent to the one inserted.  For a Database the returned object is
the inserted one with its transient, never-persisted tick field reset:
the spec's data model gives a Database no tick attribute. -/
theorem insert_select_roundtrip :
    (∀ (s : Storage) (g : Group), g.name ≠ "" → g.date ≠ "" →
      (∀ r ∈ s.groups, lookupCol "name" r ≠ some (Value.text g.name)) →
      (insert_group s g).map
        (fun s2 => select_groups s2 (Value.text g.name) none) =
        .ok (some [g])) ∧
    (∀ (s : Storage) (p : Project), p.group_name ≠ "" → p.name ≠ "" →
      p.hash ≠ "" → p.file ≠ "" → p.type ≠ "" → p.date ≠ "" →
      (∀ r ∈ s.projects,
        ¬(lookupCol "group_name" r = some (Value.text p.group_name) ∧
          lookupCol "name" r = some (Value.text p.name))) →
      (insert_project s p).map
        (fun s2 => select_projects s2 (Value.text p.group_name)
          (Value.text p.name) none) =
        .ok (some [p])) ∧
    (∀ (s : Storage) (d : Database), d.group_name ≠ "" → d.project ≠ "" →
      d.name ≠ "" → d.date ≠ "" → Value.truthy d.tickValue = true →
      (∀ r ∈ s.databases,
        ¬(lookupCol "group_name" r = some (Value.text d.group_name) ∧
          lookupCol "project" r = some (Value.text d.project) ∧
          lookupCol "name" r = some (Value.text d.name))) →
      (insert_database s d).map
        (fun s2 => select_databases s2 (Value.text d.group_name)
          (Value.text d.project) (Value.text d.name) none) =
        .ok (some [{ d with tick := none }])) ∧
    (∀ (s : Storage) (c : Client) (e : Event) (k : Int),
      (∀ kv ∈ e.payload, kv.1 ≠ "tick") → k < e.tick →
      (∀ r ∈ s.events,
        ¬(lookupCol "group_name" r = some (Value.text c.group) ∧
          lookupCol "project" r = some (Value.text c.project) ∧
          lookupCol "database" r = some (Value.text c.database) ∧
          lookupCol "tick" r = some (Value.int e.tick))) →
      ∃ s2, insert_event s c e = .ok s2 ∧
        e ∈ select_events s2 c.group c.project c.database k) := by
  refine ⟨?_, ?_, ?_, ?_⟩
  · -- groups
    intro s g hn hd hNo
    have h1 : (Value.text g.name).truthy = true := by simp [Value.truthy, hn]
    have h2 : (Value.text g.date).truthy = true := by simp [Value.truthy, hd]
    have hfa : Default.attrs g.dict =
        [("name", Value.text g.name), ("date", Value.text g.date)] := by
      simp [Default.attrs, Group.dict, List.filter_cons, h1, h2]
    have hins : _insert (groupsTable s)
        [("name", Value.text g.name), ("date", Value.text g.date)] =
        .ok ⟨groupsColumns, groupsKey, s.groups ++
          [[("name", Value.text g.name), ("date", Value.text g.date)]]⟩ := by
      apply _insert_ok_of
      · simp [groupsTable, groupsColumns]
      · simp [groupsTable, groupsColumns, lookupCol]
      · rw [List.any_eq_false]
        intro r hr
        simp only [pkConflict, groupsTable, groupsKey, List.all_cons,
          List.all_nil, Bool.and_true]
        intro hc
        rcases pkColEq_iff.mp hc with ⟨v, hvr, hvf⟩
        have hv : v = Value.text g.name := by simp [lookupCol] at hvf; exact hvf.symm
        rw [hv] at hvr
        exact hNo r hr hvr
    unfold insert_group
    rw [hfa, hins]
    simp only [Except.map]
    congr 1
    unfold select_groups _select
    have hdf : dropFalsy [("name", Value.text g.name)] =
        [("name", Value.text g.name)] := by
      simp [dropFalsy, List.filter_cons, h1]
    rw [hdf]
    have hfil : ((s.groups ++
        [[("name", Value.text g.name), ("date", Value.text g.date)]]).filter
        (rowMatches [("name", Value.text g.name)])) =
        [[("name", Value.text g.name), ("date", Value.text g.date)]] := by
      apply filter_rowMatches_append_single
      · intro r hr
        apply rowMatches_eq_false
        intro hall
        exact hNo r hr (hall ("name", Value.text g.name) (by simp))
      · apply rowMatches_iff.mpr
        intro kv hm
        simp only [List.mem_singleton] at hm
        subst hm
        simp [lookupCol]
    simp only [groupsTable]
    rw [hfil]
    rfl
  · -- projects
    intro s p hg hn hh hf ht hd hNo
    have h1 : (Value.text p.group_name).truthy = true := by
      simp [Value.truthy, hg]
    have h2 : (Value.text p.name).truthy = true := by simp [Value.truthy, hn]
    have h3 : (Value.text p.hash).truthy = true := by simp [Value.truthy, hh]
    have h4 : (Value.text p.file).truthy = true := by simp [Value.truthy, hf]
    have h5 : (Value.text p.type).truthy = true := by simp [Value.truthy, ht]
    have h6 : (Value.text p.date).truthy = true := by simp [Value.truthy, hd]
    have hfa : Default.attrs p.dict =
        [("group_name", Value.text p.group_name), ("name", Value.text p.name),
         ("hash", Value.text p.hash), ("file", Value.text p.file),
         ("type", Value.text p.type), ("date", Value.text p.date)] := by
      simp [Default.attrs, Project.dict, List.filter_cons, h1, h2, h3, h4,
        h5, h6]
    have hins : _insert (projectsTable s)
        [("group_name", Value.text p.group_name), ("name", Value.text p.name),
         ("hash", Value.text p.hash), ("file", Value.text p.file),
         ("type", Value.text p.type), ("date", Value.text p.date)] =
        .ok ⟨projectsColumns, projectsKey, s.projects ++
          [[("group_name", Value.text p.group_name),
            ("name", Value.text p.name), ("hash", Value.text p.hash),
            ("file", Value.text p.file), ("type", Value.text p.type),
            ("date", Value.text p.date)]]⟩ := by
      apply _insert_ok_of
      · simp [projectsTable, projectsColumns]
      · simp [projectsTable, projectsColumns, lookupCol]
      · rw [List.any_eq_false]
        intro r hr
        simp only [pkConflict, projectsTable, projectsKey, List.all_cons,
          List.all_nil, Bool.and_true, Bool.and_eq_true]
        intro hc
        rcases pkColEq_iff.mp hc.1 with ⟨v, hvr, hvf⟩
        rcases pkColEq_iff.mp hc.2 with ⟨w, hwr, hwf⟩
        have hv : v = Value.text p.group_name := by simp [lookupCol] at hvf; exact hvf.symm
        have hw : w = Value.text p.name := by simp [lookupCol] at hwf; exact hwf.symm
        rw [hv] at hvr
        rw [hw] at hwr
        exact hNo r hr ⟨hvr, hwr⟩
    unfold insert_project
    rw [hfa, hins]
    simp only [Except.map]
    congr 1
    unfold select_projects _select
    have hdf : dropFalsy [("group_name", Value.text p.group_name),
        ("name", Value.text p.name)] =
        [("group_name", Value.text p.group_name),
         ("name", Value.text p.name)] := by
      simp [dropFalsy, List.filter_cons, h1, h2]
    rw [hdf]
    have hfil : ((s.projects ++
        [[("group_name", Value.text p.group_name),
          ("name", Value.text p.name), ("hash", Value.text p.hash),
          ("file", Value.text p.file), ("type", Value.text p.type),
          ("date", Value.text p.date)]]).filter
        (rowMatches [("group_name", Value.text p.group_name),
          ("name", Value.text p.name)])) =
        [[("group_name", Value.text p.group_name),
          ("name", Value.text p.name), ("hash", Value.text p.hash),
          ("file", Value.text p.file), ("type", Value.text p.type),
          ("date", Value.text p.date)]] := by
      apply filter_rowMatches_append_single
      · intro r hr
        apply rowMatches_eq_false
        intro hall
        exact hNo r hr
          ⟨hall ("group_name", Value.text p.group_name) (by simp),
           hall ("name", Value.text p.name) (by simp)⟩
      · apply rowMatches_iff.mpr
        intro kv hm
        simp only [List.mem_cons, List.not_mem_nil, or_false] at hm
        rcases hm with rfl | rfl <;> simp [lookupCol]
    simp only [projectsTable]
    rw [hfil]
    rfl
  · -- databases
    intro s d hg hp hn hd htt hNo
    have h1 : (Value.text d.group_name).truthy = true := by
      simp [Value.truthy, hg]
    have h2 : (Value.text d.project).truthy = true := by simp [Value.truthy, hp]
    have h3 : (Value.text d.name).truthy = true := by simp [Value.truthy, hn]
    have h4 : (Value.text d.date).truthy = true := by simp [Value.truthy, hd]
    have hdfb : dropFalsy [("group_name", Value.text d.group_name),
        ("project", Value.text d.project), ("name", Value.text d.name),
        ("date", Value.text d.date)] =
        [("group_name", Value.text d.group_name),
         ("project", Value.text d.project), ("name", Value.text d.name),
         ("date", Value.text d.date)] := by
      simp [dropFalsy, List.filter_cons, h1, h2, h3, h4]
    have hins : _insert (databasesTable s)
        [("group_name", Value.text d.group_name),
         ("project", Value.text d.project), ("name", Value.text d.name),
         ("date", Value.text d.date)] =
        .ok ⟨databasesColumns, databasesKey, s.databases ++
          [[("group_name", Value.text d.group_name),
            ("project", Value.text d.project), ("name", Value.text d.name),
            ("date", Value.text d.date)]]⟩ := by
      apply _insert_ok_of
      · simp [databasesTable, databasesColumns]
      · simp [databasesTable, databasesColumns, lookupCol]
      · rw [List.any_eq_false]
        intro r hr
        simp only [pkConflict, databasesTable, databasesKey, List.all_cons,
          List.all_nil, Bool.and_true, Bool.and_eq_true]
        intro hc
        rcases pkColEq_iff.mp hc.1 with ⟨v, hvr, hvf⟩
        rcases pkColEq_iff.mp hc.2.1 with ⟨w, hwr, hwf⟩
        rcases pkColEq_iff.mp hc.2.2 with ⟨x, hxr, hxf⟩
        have hv : v = Value.text d.group_name := by simp [lookupCol] at hvf; exact hvf.symm
        have hw : w = Value.text d.project := by simp [lookupCol] at hwf; exact hwf.symm
        have hx : x = Value.text d.name := by simp [lookupCol] at hxf; exact hxf.symm
        rw [hv] at hvr
        rw [hw] at hwr
        rw [hx] at hxr
        exact hNo r hr ⟨hvr, hwr, hxr⟩
    rw [insert_database_of_truthy htt, hdfb, hins]
    simp only [Except.map]
    congr 1
    unfold select_databases _select
    have hdf : dropFalsy [("group_name", Value.text d.group_name),
        ("project", Value.text d.project), ("name", Value.text d.name)] =
        [("group_name", Value.text d.group_name),
         ("project", Value.text d.project), ("name", Value.text d.name)] := by
      simp [dropFalsy, List.filter_cons, h1, h2, h3]
    rw [hdf]
    have hfil : ((s.databases ++
        [[("group_name", Value.text d.group_name),
          ("project", Value.text d.project), ("name", Value.text d.name),
          ("date", Value.text d.date)]]).filter
        (rowMatches [("group_name", Value.text d.group_name),
          ("project", Value.text d.project), ("name", Value.text d.name)])) =
        [[("group_name", Value.text d.group_name),
          ("project", Value.text d.project), ("name", Value.text d.name),
          ("date", Value.text d.date)]] := by
      apply filter_rowMatches_append_single
      · intro r hr
        apply rowMatches_eq_false
        intro hall
        exact hNo r hr
          ⟨hall ("group_name", Value.text d.group_name) (by simp),
           hall ("project", Value.text d.project) (by simp),
           hall ("name", Value.text d.name) (by simp)⟩
      · apply rowMatches_iff.mpr
        intro kv hm
        simp only [List.mem_cons, List.not_mem_nil, or_false] at hm
        rcases hm with rfl | rfl | rfl <;> simp [lookupCol]
    simp only [databasesTable]
    rw [hfil]
    rfl
  · -- events
    intro s c e k hpl hk hNo
    have hins : _insert (eventsTable s)
        [("group_name", Value.text c.group),
         ("project", Value.text c.project),
         ("database", Value.text c.database),
         ("tick", Value.int e.tick),
         ("dict", Value.jsonText (DefaultEvent.attrs e))] =
        .ok ⟨eventsColumns, eventsKey, s.events ++
          [[("group_name", Value.text c.group),
            ("project", Value.text c.project),
            ("database", Value.text c.database),
            ("tick", Value.int e.tick),
            ("dict", Value.jsonText (DefaultEvent.attrs e))]]⟩ := by
      apply _insert_ok_of
      · simp [eventsTable, eventsColumns]
      · simp [eventsTable, eventsColumns, lookupCol]
      · rw [List.any_eq_false]
        intro r hr
        simp only [pkConflict, eventsTable, eventsKey, List.all_cons,
          List.all_nil, Bool.and_true, Bool.and_eq_true]
        intro hc
        rcases pkColEq_iff.mp hc.1 with ⟨v, hvr, hvf⟩
        rcases pkColEq_iff.mp hc.2.1 with ⟨w, hwr, hwf⟩
        rcases pkColEq_iff.mp hc.2.2.1 with ⟨x, hxr, hxf⟩
        rcases pkColEq_iff.mp hc.2.2.2 with ⟨y, hyr, hyf⟩
        have hv : v = Value.text c.group := by simp [lookupCol] at hvf; exact hvf.symm
        have hw : w = Value.text c.project := by simp [lookupCol] at hwf; exact hwf.symm
        have hx : x = Value.text c.database := by simp [lookupCol] at hxf; exact hxf.symm
        have hy : y = Value.int e.tick := by simp [lookupCol] at hyf; exact hyf.symm
        rw [hv] at hvr
        rw [hw] at hwr
        rw [hx] at hxr
        rw [hy] at hyr
        exact hNo r hr ⟨hvr, hwr, hxr, hyr⟩
    refine ⟨⟨s.groups, s.projects, s.databases, s.events ++
      [[("group_name", Value.text c.group),
        ("project", Value.text c.project),
        ("database", Value.text c.database),
        ("tick", Value.int e.tick),
        ("dict", Value.jsonText (DefaultEvent.attrs e))]]⟩, ?_, ?_⟩
    · unfold insert_event
      rw [hins]
      rfl
    · have hq : (scopeMatch c.group c.project c.database
          [("group_name", Value.text c.group),
           ("project", Value.text c.project),
           ("database", Value.text c.database),
           ("tick", Value.int e.tick),
           ("dict", Value.jsonText (DefaultEvent.attrs e))] &&
          tickAbove k
          [("group_name", Value.text c.group),
           ("project", Value.text c.project),
           ("database", Value.text c.database),
           ("tick", Value.int e.tick),
           ("dict", Value.jsonText (DefaultEvent.attrs e))]) = true := by
        rw [Bool.and_eq_true]
        constructor
        · exact scopeMatch_iff.mpr ⟨rfl, rfl, rfl⟩
        · exact tickAbove_iff.mpr ⟨e.tick, rfl, hk⟩
      have hmem : ([("group_name", Value.text c.group),
          ("project", Value.text c.project),
          ("database", Value.text c.database),
          ("tick", Value.int e.tick),
          ("dict", Value.jsonText (DefaultEvent.attrs e))] : Row) ∈
          (s.events ++
            [[("group_name", Value.text c.group),
              ("project", Value.text c.project),
              ("database", Value.text c.database),
              ("tick", Value.int e.tick),
              ("dict", Value.jsonText (DefaultEvent.attrs e))]]).filter
            (fun r => scopeMatch c.group c.project c.database r &&
              tickAbove k r) :=
        List.mem_filter.mpr ⟨List.mem_append_right _ (by simp), hq⟩
      have hev : eventOfRow
          [("group_name", Value.text c.group),
           ("project", Value.text c.project),
           ("database", Value.text c.database),
           ("tick", Value.int e.tick),
           ("dict", Value.jsonText (DefaultEvent.attrs e))] = e := by
        have hstep : eventOfRow
            [("group_name", Value.text c.group),
             ("project", Value.text c.project),
             ("database", Value.text c.database),
             ("tick", Value.int e.tick),
             ("dict", Value.jsonText (DefaultEvent.attrs e))] =
            ⟨e.tick, e.payload.filter (fun kv => !(kv.1 == "tick"))⟩ := rfl
        rw [hstep,
          List.filter_eq_self.mpr (fun kv hm => by simp [hpl kv hm])]
      unfold select_events
      refine List.mem_map.mpr ⟨_, mem_sortByTick.mpr hmem, hev⟩

/-- Witness for C5 at concrete objects: one group, one project, one
database and one event round-trip through their repositories. -/
theorem insert_select_roundtrip_witness :
    (insert_group Storage.init ⟨"g", "2020"⟩).map
      (fun s2 => select_groups s2 (Value.text "g") none) =
      .ok (some [⟨"g", "2020"⟩]) ∧
    (insert_project Storage.init ⟨"g", "p", "h", "f", "t", "2020"⟩).map
      (fun s2 => select_projects s2 (Value.text "g") (Value.text "p") none) =
      .ok (some [⟨"g", "p", "h", "f", "t", "2020"⟩]) ∧
    (insert_database Storage.init ⟨"g", "p", "d1", "2020", some 4⟩).map
      (fun s2 => select_databases s2 (Value.text "g") (Value.text "p")
        (Value.text "d1") none) =
      .ok (some [⟨"g", "p", "d1", "2020", none⟩]) ∧
    (∃ s2, insert_event Storage.init ⟨"g", "p", "d1"⟩
        ⟨3, [("x", PVal.int 1)]⟩ = .ok s2 ∧
      (⟨3, [("x", PVal.int 1)]⟩ : Event) ∈ select_events s2 "g" "p" "d1" 0) :=
  ⟨insert_select_roundtrip.1 Storage.init ⟨"g", "2020"⟩ (by decide) (by decide)
      (by intro r hr; cases hr),
   insert_select_roundtrip.2.1 Storage.init ⟨"g", "p", "h", "f", "t", "2020"⟩
      (by decide) (by decide) (by decide) (by decide) (by decide) (by decide)
      (by intro r hr; cases hr),
   insert_select_roundtrip.2.2.1 Storage.init ⟨"g", "p", "d1", "2020", some 4⟩
      (by decide) (by decide) (by decide) (by decide) (by decide)
      (by intro r hr; cases hr),
   insert_select_roundtrip.2.2.2 Storage.init ⟨"g", "p", "d1"⟩
      ⟨3, [("x", PVal.int 1)]⟩ 0 (by decide) (by decide)
      (by intro r hr; cases hr)⟩

/-- The three-call rename cascade of the spec (section 4.4) for group
"g", old project name "p1", new project name "p2": project rename, then
database reparenting, then event reparenting. -/
def renameCascade (s : Storage) : Storage :=
  update_events_project
    (update_database_project
      (update_project_name s (Value.text "g") (Value.text "p1")
        (Value.text "p2") none)
      (Value.text "g") (Value.text "p1") (Value.text "p2") none)
    (Value.text "g") (Value.text "p1") (Value.text "p2") none

theorem renameCascade_projects (s : Storage) :
    (renameCascade s).projects = s.projects.map (fun r =>
      if rowMatches [("group_name", Value.text "g"),
        ("name", Value.text "p1")] r
      then setCol "name" (Value.text "p2") r else r) := by
  show updateRows (rowMatches (dropFalsy [("group_name", Value.text "g"),
      ("name", Value.text "p1")])) "name" (Value.text "p2") s.projects none = _
  rw [updateRows_none]
  rfl

theorem renameCascade_databases (s : Storage) :
    (renameCascade s).databases = s.databases.map (fun r =>
      if rowMatches [("group_name", Value.text "g"),
        ("project", Value.text "p1")] r
      then setCol "project" (Value.text "p2") r else r) := by
  show updateRows (rowMatches (dropFalsy [("group_name", Value.text "g"),
      ("project", Value.text "p1")])) "project" (Value.text "p2")
      s.databases none = _
  rw [updateRows_none]
  rfl

theorem renameCascade_events (s : Storage) :
    (renameCascade s).events = s.events.map (fun r =>
      if rowMatches [("group_name", Value.text "g"),
        ("project", Value.text "p1")] r
      then setCol "project" (Value.text "p2") r else r) := by
  show updateRows (rowMatches (dropFalsy [("group_name", Value.text "g"),
      ("project", Value.text "p1")])) "project" (Value.text "p2")
      s.events none = _
  rw [updateRows_none]
  rfl

/-- C7: in every store where group "g" owns project "p1", "p1" owns the
single database "d1", and "d1" carries two events (with positive,
integer ticks, per the tick convention), the full rename cascade
update_project_name, update_database_project, update_events_project from
"p1" to "p2" yields: selecting projects with (group "g", name "p2")
returns exactly the renamed row; selecting databases with (group "g",
project "p2") returns the reparented "d1" row; selecting events in scope
("g", "p2", "d1") since tick 0 returns both events; and the same three
queries with project "p1" return empty results. -/
theorem rename_cascade_spec (s : Storage) (rp rd re1 re2 : Row)
    (hp1 : s.projects.filter (rowMatches [("group_name", Value.text "g"),
      ("name", Value.text "p1")]) = [rp])
    (hp2 : s.projects.filter (rowMatches [("group_name", Value.text "g"),
      ("name", Value.text "p2")]) = [])
    (hd1 : s.databases.filter (rowMatches [("group_name", Value.text "g"),
      ("project", Value.text "p1")]) = [rd])
    (hd2 : s.databases.filter (rowMatches [("group_name", Value.text "g"),
      ("project", Value.text "p2")]) = [])
    (hdn : lookupCol "name" rd = some (Value.text "d1"))
    (he1 : s.events.filter (rowMatches [("group_name", Value.text "g"),
      ("project", Value.text "p1")]) = [re1, re2])
    (he2 : s.events.filter (rowMatches [("group_name", Value.text "g"),
      ("project", Value.text "p2")]) = [])
    (he1d : lookupCol "database" re1 = some (Value.text "d1"))
    (he2d : lookupCol "database" re2 = some (Value.text "d1"))
    (ht1 : ∃ n : Int, lookupCol "tick" re1 = some (Value.int n) ∧ 0 < n)
    (ht2 : ∃ n : Int, lookupCol "tick" re2 = some (Value.int n) ∧ 0 < n) :
    _select (projectsTable (renameCascade s))
      [("group_name", Value.text "g"), ("name", Value.text "p2")] none =
      [setCol "name" (Value.text "p2") rp] ∧
    _select (databasesTable (renameCascade s))
      [("group_name", Value.text "g"), ("project", Value.text "p2"),
       ("name", Value.null)] none =
      [setCol "project" (Value.text "p2") rd] ∧
    lookupCol "name" (setCol "project" (Value.text "p2") rd) =
      some (Value.text "d1") ∧
    (select_events (renameCascade s) "g" "p2" "d1" 0).length = 2 ∧
    eventOfRow re1 ∈ select_events (renameCascade s) "g" "p2" "d1" 0 ∧
    eventOfRow re2 ∈ select_events (renameCascade s) "g" "p2" "d1" 0 ∧
    _select (projectsTable (renameCascade s))
      [("group_name", Value.text "g"), ("name", Value.text "p1")] none = [] ∧
    _select (databasesTable (renameCascade s))
      [("group_name", Value.text "g"), ("project", Value.text "p1"),
       ("name", Value.null)] none = [] ∧
    select_events (renameCascade s) "g" "p1" "d1" 0 = [] := by
  -- membership facts extracted from the filter hypotheses
  have hrp : rp ∈ s.projects ∧ rowMatches [("group_name", Value.text "g"),
      ("name", Value.text "p1")] rp = true := by
    have h : rp ∈ s.projects.filter (rowMatches
        [("group_name", Value.text "g"), ("name", Value.text "p1")]) := by
      rw [hp1]; simp
    exact List.mem_filter.mp h
  have hrd : rd ∈ s.databases ∧ rowMatches [("group_name", Value.text "g"),
      ("project", Value.text "p1")] rd = true := by
    have h : rd ∈ s.databases.filter (rowMatches
        [("group_name", Value.text "g"), ("project", Value.text "p1")]) := by
      rw [hd1]; simp
    exact List.mem_filter.mp h
  have hre1 : re1 ∈ s.events ∧ rowMatches [("group_name", Value.text "g"),
      ("project", Value.text "p1")] re1 = true := by
    have h : re1 ∈ s.events.filter (rowMatches
        [("group_name", Value.text "g"), ("project", Value.text "p1")]) := by
      rw [he1]; simp
    exact List.mem_filter.mp h
  have hre2 : re2 ∈ s.events ∧ rowMatches [("group_name", Value.text "g"),
      ("project", Value.text "p1")] re2 = true := by
    have h : re2 ∈ s.events.filter (rowMatches
        [("group_name", Value.text "g"), ("project", Value.text "p1")]) := by
      rw [he1]; simp
    exact List.mem_filter.mp h
  have hp2' : ∀ r ∈ s.projects, ¬ rowMatches
      [("group_name", Value.text "g"), ("name", Value.text "p2")] r = true :=
    List.filter_eq_nil_iff.mp hp2
  have hd2' : ∀ r ∈ s.databases, ¬ rowMatches
      [("group_name", Value.text "g"), ("project", Value.text "p2")] r = true :=
    List.filter_eq_nil_iff.mp hd2
  have he2' : ∀ r ∈ s.events, ¬ rowMatches
      [("group_name", Value.text "g"), ("project", Value.text "p2")] r = true :=
    List.filter_eq_nil_iff.mp he2
  have heonly : ∀ r ∈ s.events, rowMatches [("group_name", Value.text "g"),
      ("project", Value.text "p1")] r = true → r = re1 ∨ r = re2 := by
    intro r hr hm
    have h : r ∈ s.events.filter (rowMatches
        [("group_name", Value.text "g"), ("project", Value.text "p1")]) :=
      List.mem_filter.mpr ⟨hr, hm⟩
    rw [he1] at h
    simpa using h
  -- the projects query with the new name
  have hselp2 : _select (projectsTable (renameCascade s))
      [("group_name", Value.text "g"), ("name", Value.text "p2")] none =
      [setCol "name" (Value.text "p2") rp] := by
    show ((renameCascade s).projects).filter
      (rowMatches [("group_name", Value.text "g"),
        ("name", Value.text "p2")]) = _
    rw [renameCascade_projects]
    rw [filter_map_of_pointwise _ _
      (rowMatches [("group_name", Value.text "g"), ("name", Value.text "p1")])
      s.projects ?_]
    · rw [hp1]
      simp only [List.map_cons, List.map_nil]
      rw [if_pos hrp.2]
    · intro r hr
      by_cases hm : rowMatches [("group_name", Value.text "g"),
          ("name", Value.text "p1")] r = true
      · rw [if_pos hm, hm]
        have hg' : lookupCol "group_name" r = some (Value.text "g") :=
          rowMatches_iff.mp hm ("group_name", Value.text "g") (by simp)
        have hn' : lookupCol "name" r = some (Value.text "p1") :=
          rowMatches_iff.mp hm ("name", Value.text "p1") (by simp)
        apply rowMatches_iff.mpr
        intro kv hkv
        simp only [List.mem_cons, List.not_mem_nil, or_false] at hkv
        rcases hkv with rfl | rfl
        · rw [lookupCol_setCol_ne (by decide)]
          exact hg'
        · rw [lookupCol_setCol_self, hn']
          rfl
      · rw [if_neg hm, Bool.eq_false_iff.mpr (hp2' r hr),
          Bool.eq_false_iff.mpr hm]
  -- the databases query with the new project reference
  have hseld2 : _select (databasesTable (renameCascade s))
      [("group_name", Value.text "g"), ("project", Value.text "p2"),
       ("name", Value.null)] none =
      [setCol "project" (Value.text "p2") rd] := by
    show ((renameCascade s).databases).filter
      (rowMatches [("group_name", Value.text "g"),
        ("project", Value.text "p2")]) = _
    rw [renameCascade_databases]
    rw [filter_map_of_pointwise _ _
      (rowMatches [("group_name", Value.text "g"),
        ("project", Value.text "p1")])
      s.databases ?_]
    · rw [hd1]
      simp only [List.map_cons, List.map_nil]
      rw [if_pos hrd.2]
    · intro r hr
      by_cases hm : rowMatches [("group_name", Value.text "g"),
          ("project", Value.text "p1")] r = true
      · rw [if_pos hm, hm]
        have hg' : lookupCol "group_name" r = some (Value.text "g") :=
          rowMatches_iff.mp hm ("group_name", Value.text "g") (by simp)
        have hn' : lookupCol "project" r = some (Value.text "p1") :=
          rowMatches_iff.mp hm ("project", Value.text "p1") (by simp)
        apply rowMatches_iff.mpr
        intro kv hkv
        simp only [List.mem_cons, List.not_mem_nil, or_false] at hkv
        rcases hkv with rfl | rfl
        · rw [lookupCol_setCol_ne (by decide)]
          exact hg'
        · rw [lookupCol_setCol_self, hn']
          rfl
      · rw [if_neg hm, Bool.eq_false_iff.mpr (hd2' r hr),
          Bool.eq_false_iff.mpr hm]
  -- the events query with the new project reference
  have hevfil : (renameCascade s).events.filter
      (fun r => scopeMatch "g" "p2" "d1" r && tickAbove 0 r) =
      [setCol "project" (Value.text "p2") re1,
       setCol "project" (Value.text "p2") re2] := by
    rw [renameCascade_events]
    rw [filter_map_of_pointwise _ _
      (rowMatches [("group_name", Value.text "g"),
        ("project", Value.text "p1")])
      s.events ?_]
    · rw [he1]
      simp only [List.map_cons, List.map_nil]
      rw [if_pos hre1.2, if_pos hre2.2]
    · intro r hr
      by_cases hm : rowMatches [("group_name", Value.text "g"),
          ("project", Value.text "p1")] r = true
      · rw [if_pos hm, hm]
        rcases heonly r hr hm with rfl | rfl
        · have hg' : lookupCol "group_name" r = some (Value.text "g") :=
            rowMatches_iff.mp hm ("group_name", Value.text "g") (by simp)
          have hn' : lookupCol "project" r = some (Value.text "p1") :=
            rowMatches_iff.mp hm ("project", Value.text "p1") (by simp)
          rcases ht1 with ⟨n, htn, hpos⟩
          rw [Bool.and_eq_true]
          constructor
          · apply scopeMatch_iff.mpr
            refine ⟨?_, ?_, ?_⟩
            · rw [lookupCol_setCol_ne (by decide)]
              exact hg'
            · rw [lookupCol_setCol_self, hn']
              rfl
            · rw [lookupCol_setCol_ne (by decide)]
              exact he1d
          · apply tickAbove_iff.mpr
            refine ⟨n, ?_, hpos⟩
            rw [lookupCol_setCol_ne (by decide)]
            exact htn
        · have hg' : lookupCol "group_name" r = some (Value.text "g") :=
            rowMatches_iff.mp hm ("group_name", Value.text "g") (by simp)
          have hn' : lookupCol "project" r = some (Value.text "p1") :=
            rowMatches_iff.mp hm ("project", Value.text "p1") (by simp)
          rcases ht2 with ⟨n, htn, hpos⟩
          rw [Bool.and_eq_true]
          constructor
          · apply scopeMatch_iff.mpr
            refine ⟨?_, ?_, ?_⟩
            · rw [lookupCol_setCol_ne (by decide)]
              exact hg'
            · rw [lookupCol_setCol_self, hn']
              rfl
            · rw [lookupCol_setCol_ne (by decide)]
              exact he2d
          · apply tickAbove_iff.mpr
            refine ⟨n, ?_, hpos⟩
            rw [lookupCol_setCol_ne (by decide)]
            exact htn
      · rw [if_neg hm, Bool.eq_false_iff.mpr hm, Bool.eq_false_iff]
        intro htrue
        rw [Bool.and_eq_true] at htrue
        rcases scopeMatch_iff.mp htrue.1 with ⟨hg', hp', _⟩
        apply he2' r hr
        apply rowMatches_iff.mpr
        intro kv hkv
        simp only [List.mem_cons, List.not_mem_nil, or_false] at hkv
        rcases hkv with rfl | rfl
        · exact hg'
        · exact hp'
  -- the events query with the old project reference is empty
  have hevfil1 : (renameCascade s).events.filter
      (fun r => scopeMatch "g" "p1" "d1" r && tickAbove 0 r) = [] := by
    rw [renameCascade_events]
    apply List.filter_eq_nil_iff.mpr
    intro x hx
    rcases List.mem_map.mp hx with ⟨r, hr, rfl⟩
    by_cases hm : rowMatches [("group_name", Value.text "g"),
        ("project", Value.text "p1")] r = true
    · rw [if_pos hm]
      intro htrue
      rw [Bool.and_eq_true] at htrue
      rcases scopeMatch_iff.mp htrue.1 with ⟨_, hp', _⟩
      have hn' : lookupCol "project" r = some (Value.text "p1") :=
        rowMatches_iff.mp hm ("project", Value.text "p1") (by simp)
      rw [lookupCol_setCol_self, hn'] at hp'
      simp at hp'
    · rw [if_neg hm]
      intro htrue
      rw [Bool.and_eq_true] at htrue
      rcases scopeMatch_iff.mp htrue.1 with ⟨hg', hp', _⟩
      apply hm
      apply rowMatches_iff.mpr
      intro kv hkv
      simp only [List.mem_cons, List.not_mem_nil, or_false] at hkv
      rcases hkv with rfl | rfl
      · exact hg'
      · exact hp'
  refine ⟨hselp2, hseld2, ?_, ?_, ?_, ?_, ?_, ?_, ?_⟩
  · rw [lookupCol_setCol_ne (by decide)]
    exact hdn
  · show ((sortByTick ((renameCascade s).events.filter
      (fun r => scopeMatch "g" "p2" "d1" r && tickAbove 0 r))).map
      eventOfRow).length = 2
    rw [hevfil, List.length_map, length_sortByTick]
    rfl
  · show eventOfRow re1 ∈ (sortByTick ((renameCascade s).events.filter
      (fun r => scopeMatch "g" "p2" "d1" r && tickAbove 0 r))).map eventOfRow
    rw [hevfil]
    refine List.mem_map.mpr ⟨setCol "project" (Value.text "p2") re1, ?_, ?_⟩
    · exact mem_sortByTick.mpr (by simp)
    · exact eventOfRow_setCol_project _ _
  · show eventOfRow re2 ∈ (sortByTick ((renameCascade s).events.filter
      (fun r => scopeMatch "g" "p2" "d1" r && tickAbove 0 r))).map eventOfRow
    rw [hevfil]
    refine List.mem_map.mpr ⟨setCol "project" (Value.text "p2") re2, ?_, ?_⟩
    · exact mem_sortByTick.mpr (by simp)
    · exact eventOfRow_setCol_project _ _
  · show ((renameCascade s).projects).filter
      (rowMatches [("group_name", Value.text "g"),
        ("name", Value.text "p1")]) = []
    rw [renameCascade_projects]
    apply List.filter_eq_nil_iff.mpr
    intro x hx
    rcases List.mem_map.mp hx with ⟨r, hr, rfl⟩
    by_cases hm : rowMatches [("group_name", Value.text "g"),
        ("name", Value.text "p1")] r = true
    · rw [if_pos hm]
      intro htrue
      have hp' : lookupCol "name" (setCol "name" (Value.text "p2") r) =
          some (Value.text "p1") :=
        rowMatches_iff.mp htrue ("name", Value.text "p1") (by simp)
      have hn' : lookupCol "name" r = some (Value.text "p1") :=
        rowMatches_iff.mp hm ("name", Value.text "p1") (by simp)
      rw [lookupCol_setCol_self, hn'] at hp'
      simp at hp'
    · rw [if_neg hm]
      exact hm
  · show ((renameCascade s).databases).filter
      (rowMatches [("group_name", Value.text "g"),
        ("project", Value.text "p1")]) = []
    rw [renameCascade_databases]
    apply List.filter_eq_nil_iff.mpr
    intro x hx
    rcases List.mem_map.mp hx with ⟨r, hr, rfl⟩
    by_cases hm : rowMatches [("group_name", Value.text "g"),
        ("project", Value.text "p1")] r = true
    · rw [if_pos hm]
      intro htrue
      have hp' : lookupCol "project" (setCol "project" (Value.text "p2") r) =
          some (Value.text "p1") :=
        rowMatches_iff.mp htrue ("project", Value.text "p1") (by simp)
      have hn' : lookupCol "project" r = some (Value.text "p1") :=
        rowMatches_iff.mp hm ("project", Value.text "p1") (by simp)
      rw [lookupCol_setCol_self, hn'] at hp'
      simp at hp'
    · rw [if_neg hm]
      exact hm
  · show (sortByTick ((renameCascade s).events.filter
      (fun r => scopeMatch "g" "p1" "d1" r && tickAbove 0 r))).map
      eventOfRow = []
    rw [hevfil1]
    rfl

/-- Project row used by the C7 witness store. -/
def c7rp : Row :=
  [("group_name", Value.text "g"), ("name", Value.text "p1"),
   ("hash", Value.text "h"), ("file", Value.text "f"),
   ("type", Value.text "t"), ("date", Value.text "x")]

/-- Database row used by the C7 witness store. -/
def c7rd : Row :=
  [("group_name", Value.text "g"), ("project", Value.text "p1"),
   ("name", Value.text "d1"), ("date", Value.text "x")]

/-- First event row used by the C7 witness store. -/
def c7re1 : Row :=
  [("group_name", Value.text "g"), ("project", Value.text "p1"),
   ("database", Value.text "d1"), ("tick", Value.int 1),
   ("dict", Value.jsonText [])]

/-- Second event row used by the C7 witness store. -/
def c7re2 : Row :=
  [("group_name", Value.text "g"), ("project", Value.text "p1"),
   ("database", Value.text "d1"), ("tick", Value.int 2),
   ("dict", Value.jsonText [])]

/-- Witness store for C7: group "g" owns project "p1", which owns the
database "d1" with two events. -/
def c7storage : Storage :=
  ⟨[[("name", Value.text "g"), ("date", Value.text "x")]],
   [c7rp], [c7rd], [c7re1, c7re2]⟩

/-- Witness for C7 at the concrete store: after the cascade, the "p2"
queries find the renamed project, "d1", and both events, and the "p1"
event query is empty. -/
theorem rename_cascade_spec_witness :
    _select (projectsTable (renameCascade c7storage))
      [("group_name", Value.text "g"), ("name", Value.text "p2")] none =
      [setCol "name" (Value.text "p2") c7rp] ∧
    (select_events (renameCascade c7storage) "g" "p2" "d1" 0).length = 2 ∧
    eventOfRow c7re1 ∈ select_events (renameCascade c7storage) "g" "p2" "d1" 0 ∧
    select_events (renameCascade c7storage) "g" "p1" "d1" 0 = [] := by
  have h := rename_cascade_spec c7storage c7rp c7rd c7re1 c7re2
    (by decide) (by decide) (by decide) (by decide) (by decide)
    (by decide) (by decide) (by decide) (by decide)
    ⟨1, rfl, by decide⟩ ⟨2, rfl, by decide⟩
  exact ⟨h.1, h.2.2.2.1, h.2.2.2.2.1, h.2.2.2.2.2.2.2.2⟩

end IDArling
